import Mathlib

/-!
Shallow embedding of the change-detection core of `imessage-undeleter`
(`src/core/{detection_engine, state_manager, tracker, output_plugins, config}.rs`).

Machine integers (`i32`, `i64`) are modelled as `Int`; none of the verified
code paths perform overflowing arithmetic.  SQLite tables are modelled as
lists of row structures; `serde_json` encoding/decoding of `Vec<String>` and
`MessageFingerprint` is modelled by explicit function parameters (`encA`,
`decA`, `decFp`), since the exact JSON grammar is external to the crate.
`chrono::Utc::now().timestamp()` is modelled by an explicit `now : Int`
argument.
-/

/-- `config.rs`: `enum DeletionType`. -/
inductive DeletionType where
  | FullMessage
  | PartialEdit
  | AttachmentOnly
  | MediaContent
deriving DecidableEq, Repr

/-- `format!("\x7b:?\x7d", dt)` on `DeletionType` (Rust `Debug` derive). -/
def DeletionType.debugStr : DeletionType → String
  | .FullMessage => "FullMessage"
  | .PartialEdit => "PartialEdit"
  | .AttachmentOnly => "AttachmentOnly"
  | .MediaContent => "MediaContent"

/-- `config.rs`: `struct DetectionConfig` (the `conversation_filters` field is
never read by the detection engine but is kept for fidelity). -/
structure DetectionConfig where
  deletion_types : List DeletionType
  track_edits_as_deletions : Bool
  conversation_filters : List String
deriving DecidableEq, Repr

/-- `state_manager.rs`: `struct MessageFingerprint`. -/
structure MessageFingerprint where
  message_id : Int
  content_hash : String
  attachment_hashes : List String
  timestamp : Int
  conversation_id : Option Int
  sender_handle : Option String
deriving DecidableEq, Repr

/-- `state_manager.rs`: `struct DeletionRecord`. -/
structure DeletionRecord where
  id : Int
  message_id : Int
  original_fingerprint : MessageFingerprint
  deletion_timestamp : Int
  deletion_type : String
  recovered_content : Option String
  recovered_attachments : List String
deriving DecidableEq, Repr

/-- `detection_engine.rs`: `struct DetectionResult` (`metadata: HashMap` is
modelled as an association list; every detector leaves it empty). -/
structure DetectionResult where
  deletion_type : DeletionType
  recovered_content : Option String
  recovered_attachments : List String
  metadata : List (String × String)
deriving DecidableEq, Repr

/-- The three concrete `DeletionDetector` implementations registered by
`DetectionEngine::new`, in their registration order. -/
inductive Detector where
  | fullMessage
  | attachmentOnly
  | partEdit
deriving DecidableEq, Repr

/-- `DeletionDetector::name` of each implementation. -/
def Detector.name : Detector → String
  | .fullMessage => "FullMessageDeletion"
  | .attachmentOnly => "AttachmentDeletion"
  | .partEdit => "PartialEdit"

/-- `DeletionDetector::supported_types` of each implementation. -/
def Detector.supported_types : Detector → List DeletionType
  | .fullMessage => [.FullMessage]
  | .attachmentOnly => [.AttachmentOnly]
  | .partEdit => [.PartialEdit]

/-- `detect_deletion` of each detector (`detection_engine.rs` lines 179-302).
All three implementations only ever return `Ok(...)`, so the `Result` wrapper
is dropped; the engine's `Err` branch is dead code for these detectors.
The config reaches a detector through `DetectionContext`. -/
def Detector.detect (d : Detector) (config : DetectionConfig)
    (current_state previous_state : Option MessageFingerprint) :
    Option DetectionResult :=
  match d with
  | .fullMessage =>
    match previous_state, current_state with
    | some prev, none =>
        some ⟨.FullMessage, some "Full message content", prev.attachment_hashes, []⟩
    | some prev, some curr =>
        if prev.content_hash ≠ curr.content_hash then
          some ⟨.FullMessage, some "Modified content", [], []⟩
        else none
    | _, _ => none
  | .attachmentOnly =>
    match previous_state, current_state with
    | some prev, some curr =>
        if prev.content_hash = curr.content_hash ∧
            prev.attachment_hashes ≠ curr.attachment_hashes then
          let missing := prev.attachment_hashes.filter
            (fun hash => !(curr.attachment_hashes.contains hash))
          if missing.isEmpty then none
          else some ⟨.AttachmentOnly, none, missing, []⟩
        else none
    | _, _ => none
  | .partEdit =>
    if !config.track_edits_as_deletions then none
    else
      match previous_state, current_state with
      | some prev, some curr =>
          if prev.content_hash ≠ curr.content_hash then
            some ⟨.PartialEdit, some "Content changed", [], []⟩
          else none
      | _, _ => none

/-- `DetectionEngine::new`: the fixed detector list, filtered to those whose
supported types intersect `config.deletion_types`. -/
def DetectionEngine.new (config : DetectionConfig) : List Detector :=
  [Detector.fullMessage, Detector.attachmentOnly, Detector.partEdit].filter
    (fun d => d.supported_types.any (fun dt => config.deletion_types.contains dt))

/-- The inner detector loop of `analyze_message_changes` for one message:
detectors run in list order and the first `Ok(Some(result))` wins (`break`).
Since no detector errs, this is `findSome?`. -/
def runDetectors (config : DetectionConfig) (detectors : List Detector)
    (current_state previous_state : Option MessageFingerprint) :
    Option DetectionResult :=
  detectors.findSome? (fun d => d.detect config current_state previous_state)

/-- `TrackerConfig::default().detection` (`config.rs` lines 97-102). -/
def defaultDetectionConfig : DetectionConfig :=
  { deletion_types := [.FullMessage, .AttachmentOnly]
    track_edits_as_deletions := false
    conversation_filters := [] }

example :
    DetectionEngine.new defaultDetectionConfig =
      [Detector.fullMessage, Detector.attachmentOnly] := by decide

example :
    Detector.detect .attachmentOnly defaultDetectionConfig
      (some ⟨7, "A", ["x"], 1, none, none⟩) (some ⟨7, "A", ["x", "y"], 0, none, none⟩) =
      some ⟨.AttachmentOnly, none, ["y"], []⟩ := by decide

/-- A row of the `message_fingerprints` table (`state_manager.rs` schema,
lines 58-66).  `message_id` is the PRIMARY KEY; `attachment_hashes` is stored
as JSON text. -/
structure FingerprintRow where
  message_id : Int
  content_hash : String
  attachment_hashes_json : String
  timestamp : Int
  conversation_id : Option Int
  sender_handle : Option String
deriving DecidableEq, Repr

/-- `StateManager::store_fingerprint`: `INSERT OR REPLACE` keyed on the
primary key `message_id`, with `attachment_hashes` serialised by
`serde_json::to_string` (modelled by `encA`). -/
def store_fingerprint (encA : List String → String) (fingerprint : MessageFingerprint)
    (table : List FingerprintRow) : List FingerprintRow :=
  { message_id := fingerprint.message_id
    content_hash := fingerprint.content_hash
    attachment_hashes_json := encA fingerprint.attachment_hashes
    timestamp := fingerprint.timestamp
    conversation_id := fingerprint.conversation_id
    sender_handle := fingerprint.sender_handle } ::
    table.filter (fun r => !decide (r.message_id = fingerprint.message_id))

/-- `StateManager::get_fingerprint`: select the row with the given
`message_id` (at most one, PRIMARY KEY); `attachment_hashes` is decoded with
`serde_json::from_str` (modelled by `decA`) and a decode failure falls back to
the empty list via `unwrap_or_default()`.  `QueryReturnedNoRows` maps to
`none`; no other error path exists in this function's row mapper. -/
def get_fingerprint (decA : String → Option (List String)) (message_id : Int)
    (table : List FingerprintRow) : Option MessageFingerprint :=
  (table.find? (fun r => decide (r.message_id = message_id))).map fun row =>
    { message_id := row.message_id
      content_hash := row.content_hash
      attachment_hashes := (decA row.attachment_hashes_json).getD []
      timestamp := row.timestamp
      conversation_id := row.conversation_id
      sender_handle := row.sender_handle }

/-- A row of the `deletion_records` table (`state_manager.rs` schema, lines
68-78).  `original_fingerprint` and `recovered_attachments` are stored as JSON
text; `id` is `INTEGER PRIMARY KEY AUTOINCREMENT`. -/
structure JournalRow where
  id : Int
  message_id : Int
  original_fingerprint_json : String
  deletion_timestamp : Int
  deletion_type : String
  recovered_content : Option String
  recovered_attachments_json : String
deriving DecidableEq, Repr

/-- The `deletion_records` table together with its AUTOINCREMENT counter. -/
structure Journal where
  next_id : Int
  rows : List JournalRow
deriving DecidableEq, Repr

/-- `StateManager::store_deletion`: insert a journal row (fingerprint and
attachment list serialised to JSON, modelled by `encFp`/`encA`) and return the
assigned rowid. -/
def store_deletion (encFp : MessageFingerprint → String) (encA : List String → String)
    (journal : Journal) (deletion : DeletionRecord) : Int × Journal :=
  (journal.next_id,
   { next_id := journal.next_id + 1
     rows := journal.rows ++
       [{ id := journal.next_id
          message_id := deletion.message_id
          original_fingerprint_json := encFp deletion.original_fingerprint
          deletion_timestamp := deletion.deletion_timestamp
          deletion_type := deletion.deletion_type
          recovered_content := deletion.recovered_content
          recovered_attachments_json := encA deletion.recovered_attachments }] })

/-- A value in a SQLite result row, as seen by `rusqlite`'s `Row::get`. -/
inductive SqlValue where
  | int (i : Int)
  | text (s : String)
  | null
deriving DecidableEq, Repr

/-- The errors `rusqlite` can surface in `get_deletions_in_range`'s mapper. -/
inductive SqlError where
  | invalidColumnIndex (i : Nat)
  | invalidColumnType (i : Nat)
deriving DecidableEq, Repr

/-- `rusqlite::Row::get::<usize, ...>(i)`: an index at or past the statement's
column count yields `Error::InvalidColumnIndex(i)`. -/
def rowGet (row : List SqlValue) (i : Nat) : Except SqlError SqlValue :=
  match row.get? i with
  | some v => .ok v
  | none => .error (.invalidColumnIndex i)

/-- `Row::get::<usize, String>(i)`. -/
def rowGetText (row : List SqlValue) (i : Nat) : Except SqlError String := do
  match ← rowGet row i with
  | .text s => .ok s
  | _ => .error (.invalidColumnType i)

/-- `Row::get::<usize, i64>(i)` (also used for `i32` ids). -/
def rowGetInt (row : List SqlValue) (i : Nat) : Except SqlError Int := do
  match ← rowGet row i with
  | .int n => .ok n
  | _ => .error (.invalidColumnType i)

/-- `Row::get::<usize, Option<String>>(i)`. -/
def rowGetOptText (row : List SqlValue) (i : Nat) : Except SqlError (Option String) := do
  match ← rowGet row i with
  | .text s => .ok (some s)
  | .null => .ok none
  | _ => .error (.invalidColumnType i)

/-- The result row produced for a `JournalRow` by the SELECT in
`get_deletions_in_range`: exactly seven columns, indices 0-6, in the order
`id, message_id, original_fingerprint, deletion_timestamp, deletion_type,
recovered_content, recovered_attachments`. -/
def JournalRow.toSqlRow (r : JournalRow) : List SqlValue :=
  [ .int r.id, .int r.message_id, .text r.original_fingerprint_json,
    .int r.deletion_timestamp, .text r.deletion_type,
    (match r.recovered_content with | some s => .text s | none => .null),
    .text r.recovered_attachments_json ]

/-- The row mapper closure of `get_deletions_in_range` (`state_manager.rs`
lines 173-193), exactly as written in the source: it reads
`fingerprint_json` from column 2, `attachments_json` from column 7,
`recovered_content` from column 6.  A fingerprint-JSON decode failure maps to
`InvalidColumnType(2)`; the attachment decode falls back to `[]`. -/
def mapDeletionRow (decFp : String → Option MessageFingerprint)
    (decA : String → Option (List String)) (row : List SqlValue) :
    Except SqlError DeletionRecord := do
  let fingerprint_json ← rowGetText row 2
  let attachments_json ← rowGetText row 7
  let original_fingerprint ←
    match decFp fingerprint_json with
    | some fp => Except.ok fp
    | none => Except.error (.invalidColumnType 2)
  let recovered_attachments := (decA attachments_json).getD []
  let id ← rowGetInt row 0
  let message_id ← rowGetInt row 1
  let deletion_timestamp ← rowGetInt row 3
  let deletion_type ← rowGetText row 4
  let recovered_content ← rowGetOptText row 6
  Except.ok
    { id, message_id, original_fingerprint, deletion_timestamp,
      deletion_type, recovered_content, recovered_attachments }

/-- Insert into a list kept sorted by strictly greater `key`, preserving the
relative order of equal keys (stable descending sort step). -/
def insertDescBy (key : JournalRow → Int) (x : JournalRow) :
    List JournalRow → List JournalRow
  | [] => [x]
  | y :: ys =>
    if key y < key x then x :: y :: ys else y :: insertDescBy key x ys

/-- `ORDER BY deletion_timestamp DESC` over the selected rows. -/
def sortByTimestampDesc (rows : List JournalRow) : List JournalRow :=
  rows.foldr (insertDescBy (fun r => r.deletion_timestamp)) []

/-- `StateManager::get_deletions_in_range`: select the journal rows with
`deletion_timestamp BETWEEN start_time AND end_time` (inclusive), order them
by `deletion_timestamp DESC`, and run the row mapper over each; the first
mapper error aborts the whole call (`deletions.push(row?)`). -/
def get_deletions_in_range (decFp : String → Option MessageFingerprint)
    (decA : String → Option (List String)) (start_time end_time : Int)
    (journal : List JournalRow) : Except SqlError (List DeletionRecord) :=
  let selected := journal.filter (fun r =>
    decide (start_time ≤ r.deletion_timestamp) && decide (r.deletion_timestamp ≤ end_time))
  (sortByTimestampDesc selected).mapM (fun r => mapDeletionRow decFp decA r.toSqlRow)

/-- `StateManager::cleanup_old_records`: compute the cutoff
`now - retention_days * 24 * 60 * 60` and DELETE every fingerprint row with
`timestamp < cutoff` and every journal row with `deletion_timestamp < cutoff`.
Run once from `StateManager::new`. -/
def cleanup_old_records (now : Int) (retention_days : Int)
    (fingerprints : List FingerprintRow) (deletions : List JournalRow) :
    List FingerprintRow × List JournalRow :=
  let cutoff_timestamp := now - retention_days * 24 * 60 * 60
  (fingerprints.filter (fun r => !decide (r.timestamp < cutoff_timestamp)),
   deletions.filter (fun r => !decide (r.deletion_timestamp < cutoff_timestamp)))

/-- `event_system.rs`: `enum DatabaseEvent` (the `Instant` in
`TransactionComplete` is modelled as an `Int` tick). -/
inductive DatabaseEvent where
  | messagesAdded (ids : List Int)
  | messagesModified (ids : List Int)
  | transactionComplete (wal_size : Int) (timestamp : Int)
  | monitoringError (msg : String)
deriving DecidableEq, Repr

/-- `DetectionEngine::build_current_fingerprint` (`detection_engine.rs` lines
158-163): the source is an acknowledged placeholder that always returns
`Ok(None)`. -/
def build_current_fingerprint (_message_id : Int) : Option MessageFingerprint :=
  none

/-- Construction of the `DeletionRecord` in `analyze_message_changes` (lines
110-129): `id` is 0 until the state manager assigns one; a missing previous
state is replaced by a dummy fingerprint; both the dummy's timestamp and
`deletion_timestamp` are `Utc::now().timestamp()`, modelled by `now`. -/
def mkDeletionRecord (now : Int) (message_id : Int)
    (previous_state : Option MessageFingerprint) (result : DetectionResult) :
    DeletionRecord :=
  { id := 0
    message_id
    original_fingerprint :=
      previous_state.getD
        { message_id, content_hash := "unknown", attachment_hashes := []
          timestamp := now, conversation_id := none, sender_handle := none }
    deletion_timestamp := now
    deletion_type := result.deletion_type.debugStr
    recovered_content := result.recovered_content
    recovered_attachments := result.recovered_attachments }

/-- The body of `analyze_message_changes`'s per-id loop (lines 95-153),
parameterised over the current-fingerprint computation `currentOf` (the source
instantiates it with `build_current_fingerprint`): fetch previous and current
state, run the detectors (first match wins), and afterwards store the current
fingerprint as the new baseline whenever it exists (`if let Some(current)`). -/
def processMessageId (config : DetectionConfig) (encA : List String → String)
    (decA : String → Option (List String))
    (currentOf : Int → Option MessageFingerprint) (now : Int)
    (table : List FingerprintRow) (message_id : Int) :
    Option DeletionRecord × List FingerprintRow :=
  let previous_state := get_fingerprint decA message_id table
  let current_state := currentOf message_id
  let record :=
    (runDetectors config (DetectionEngine.new config) current_state previous_state).map
      (mkDeletionRecord now message_id previous_state)
  let table' :=
    match current_state with
    | some current => store_fingerprint encA current table
    | none => table
  (record, table')

/-- `DetectionEngine::analyze_message_changes` over a batch of ids,
parameterised over the current-fingerprint computation. -/
def analyze_message_changes_with (config : DetectionConfig)
    (encA : List String → String) (decA : String → Option (List String))
    (currentOf : Int → Option MessageFingerprint) (now : Int)
    (message_ids : List Int) (table : List FingerprintRow) :
    List DeletionRecord × List FingerprintRow :=
  message_ids.foldl
    (fun acc message_id =>
      let step := processMessageId config encA decA currentOf now acc.2 message_id
      (acc.1 ++ step.1.toList, step.2))
    ([], table)

/-- `DetectionEngine::analyze_message_changes` exactly as in the source: the
current fingerprint comes from the stub `build_current_fingerprint`. -/
def analyze_message_changes (config : DetectionConfig)
    (encA : List String → String) (decA : String → Option (List String))
    (now : Int) (message_ids : List Int) (table : List FingerprintRow) :
    List DeletionRecord × List FingerprintRow :=
  analyze_message_changes_with config encA decA build_current_fingerprint now
    message_ids table

/-- `DetectionEngine::process_event` (lines 75-86): `MessagesModified` is
analysed; every other event yields no records and leaves the store untouched. -/
def process_event (config : DetectionConfig) (encA : List String → String)
    (decA : String → Option (List String)) (now : Int) (event : DatabaseEvent)
    (table : List FingerprintRow) : List DeletionRecord × List FingerprintRow :=
  match event with
  | .messagesModified message_ids =>
      analyze_message_changes config encA decA now message_ids table
  | _ => ([], table)

/-- The mutable state `DeletionTracker::handle_event` can touch: the journal
(via `store_deletion`) and the trail of records handed to
`OutputManager::handle_deletion`. -/
structure TrackerState where
  journal : Journal
  delivered : List DeletionRecord
deriving DecidableEq, Repr

/-- `DeletionTracker::handle_event` (`tracker.rs` lines 77-121), exactly as in
the source: on `MessagesModified` it binds `deletions` to an empty placeholder
vector (line 86) — it never invokes `DetectionEngine::process_event` — and the
per-deletion loop (journal append via `store_deletion`, then dispatch with the
assigned id) therefore iterates zero times.  All other events only log. -/
def handle_event (encFp : MessageFingerprint → String)
    (encA : List String → String) (s : TrackerState) (event : DatabaseEvent) :
    TrackerState :=
  match event with
  | .messagesModified _message_ids =>
    let deletions : List DeletionRecord := []
    deletions.foldl
      (fun st deletion =>
        let stored := store_deletion encFp encA st.journal deletion
        let deletion_with_id := { deletion with id := stored.1 }
        { journal := stored.2
          delivered := st.delivered ++ [deletion_with_id] })
      s
  | _ => s

/-- One configured output handler, abstracted over the outcomes of its
external effects: `init_result` is what its `initialize()` returns and
`deliver_result` what `handle_deletion(..)` returns. -/
structure SinkSpec where
  name : String
  init_result : Except String Unit
  deliver_result : Except String Unit
deriving Repr

/-- `OutputManager::initialize` (`output_plugins.rs` lines 70-76):
`handler.initialize().await?` in a for-loop — the first failing handler's
error is returned immediately and the remaining handlers are not initialized.
On success, returns the names of the handlers initialized, in order. -/
def OutputManager.initAll : List SinkSpec → Except String (List String)
  | [] => .ok []
  | h :: rest =>
    match h.init_result with
    | .error e => .error e
    | .ok _ => (OutputManager.initAll rest).map (fun names => h.name :: names)

/-- `OutputManager::handle_deletion` (lines 79-87): every handler is
attempted; a failing handler is only logged (`if let Err`) and the loop
continues; the function always returns `Ok(())`.  Modelled as the list of
(name, succeeded?) attempts. -/
def OutputManager.handle_deletion (handlers : List SinkSpec) :
    List (String × Bool) :=
  handlers.map (fun h => (h.name, h.deliver_result.isOk))

/-- The sink-initialization step of `DeletionTracker::new` (`tracker.rs` line
43): `output_manager.write().await.initialize().await?` — an error from
`OutputManager::initialize` propagates out of `DeletionTracker::new`, failing
construction of the tracker. -/
def tracker_new_sink_init (handlers : List SinkSpec) : Except String Unit :=
  (OutputManager.initAll handlers).map (fun _ => ())

/-- A concrete instance of the `serde_json` `Vec<String>` round-trip used by
witnesses: empty list ↔ empty string, singleton ↔ its element. -/
def encDemo : List String → String
  | [] => ""
  | [x] => x
  | _ => "multi"

/-- Concrete witness decoder matching `encDemo` on `[]` and singletons. -/
def decDemo (s : String) : Option (List String) :=
  if s = "" then some [] else some [s]

/-- Concrete witness stand-in for `serde_json::to_string` of a fingerprint. -/
def encFpDemo : MessageFingerprint → String := fun _ => "fp-json"

/-- Sample fingerprint row seeded in concrete runs: message 7 was last seen
with content hash "A", no attachments, at time 100. -/
def row7 : FingerprintRow :=
  { message_id := 7, content_hash := "A", attachment_hashes_json := ""
    timestamp := 100, conversation_id := none, sender_handle := none }

/-- The fingerprint `get_fingerprint decDemo 7 [row7]` yields. -/
def prevA : MessageFingerprint :=
  { message_id := 7, content_hash := "A", attachment_hashes := []
    timestamp := 100, conversation_id := none, sender_handle := none }

/-- A hypothetical current fingerprint for message 7 whose content hash
changed to "B" while the item is still present. -/
def currB : MessageFingerprint :=
  { message_id := 7, content_hash := "B", attachment_hashes := []
    timestamp := 200, conversation_id := none, sender_handle := none }

/-- C8: after `store_fingerprint fp` on top of any prior table (i.e. after any
sequence of puts), `get_fingerprint` on `fp.message_id` returns exactly `fp`
(given that JSON decoding inverts encoding on its attachment list), and the
table holds exactly one row for that id — last write wins, at most one
fingerprint per id. -/
theorem put_get_last_write_wins (encA : List String → String)
    (decA : String → Option (List String)) (table : List FingerprintRow)
    (fp : MessageFingerprint)
    (hround : decA (encA fp.attachment_hashes) = some fp.attachment_hashes) :
    get_fingerprint decA fp.message_id (store_fingerprint encA fp table) = some fp ∧
    (store_fingerprint encA fp table).countP
      (fun r => decide (r.message_id = fp.message_id)) = 1 := by
  constructor
  · obtain ⟨mid, ch, ah, ts, cid, sh⟩ := fp
    simp only at hround
    simp [get_fingerprint, store_fingerprint, hround]
  · rw [store_fingerprint, List.countP_cons_of_pos]
    · rw [Nat.add_left_eq_self, List.countP_eq_zero]
      intro r hr
      have hpr := List.of_mem_filter hr
      simp only [Bool.not_eq_true', decide_eq_false_iff_not] at hpr
      simpa using hpr
    · simp

/-- C8 witness: storing fingerprint 7 into the empty table and reading it
back. -/
theorem put_get_last_write_wins_witness :
    get_fingerprint decDemo 7
        (store_fingerprint encDemo ⟨7, "h", [], 10, none, none⟩ []) =
      some ⟨7, "h", [], 10, none, none⟩ ∧
    (store_fingerprint encDemo ⟨7, "h", [], 10, none, none⟩ []).countP
      (fun r => decide (r.message_id = (7 : Int))) = 1 :=
  put_get_last_write_wins encDemo decDemo [] ⟨7, "h", [], 10, none, none⟩ (by decide)

/-- C9: the startup retention purge keeps a fingerprint row exactly when its
`timestamp` is at or after the cutoff `now - retention_days·86400`, keeps a
journal row exactly when its `deletion_timestamp` is at or after the cutoff,
and the survivors are a sublist of the original tables (unchanged, in
order). -/
theorem cleanup_removes_exactly_older (now retention_days : Int)
    (fingerprints : List FingerprintRow) (deletions : List JournalRow) :
    (cleanup_old_records now retention_days fingerprints deletions).1.Sublist
        fingerprints ∧
    (cleanup_old_records now retention_days fingerprints deletions).2.Sublist
        deletions ∧
    (∀ r : FingerprintRow,
      r ∈ (cleanup_old_records now retention_days fingerprints deletions).1 ↔
        r ∈ fingerprints ∧ now - retention_days * 24 * 60 * 60 ≤ r.timestamp) ∧
    (∀ r : JournalRow,
      r ∈ (cleanup_old_records now retention_days fingerprints deletions).2 ↔
        r ∈ deletions ∧
          now - retention_days * 24 * 60 * 60 ≤ r.deletion_timestamp) := by
  refine ⟨List.filter_sublist _, List.filter_sublist _, ?_, ?_⟩ <;>
    intro r <;> simp [cleanup_old_records, List.mem_filter, Int.not_lt]

/-- C10: if the stored `attachment_hashes` text of the row found for an id
fails to decode (`serde_json::from_str` errs), `get_fingerprint` still
succeeds and returns the row's fields with an empty attachment-hash list. -/
theorem get_fingerprint_bad_json_empty_list
    (decA : String → Option (List String)) (table : List FingerprintRow)
    (message_id : Int) (row : FingerprintRow)
    (hfind : table.find? (fun r => decide (r.message_id = message_id)) = some row)
    (hbad : decA row.attachment_hashes_json = none) :
    get_fingerprint decA message_id table =
      some { message_id := row.message_id, content_hash := row.content_hash
             attachment_hashes := [], timestamp := row.timestamp
             conversation_id := row.conversation_id
             sender_handle := row.sender_handle } := by
  simp [get_fingerprint, hfind, hbad]

/-- C10 witness: a single row whose attachment column holds non-JSON text,
read with a decoder that rejects everything. -/
theorem get_fingerprint_bad_json_empty_list_witness :
    get_fingerprint (fun _ => (none : Option (List String))) 7
        [⟨7, "h", "not json", 5, none, none⟩] =
      some ⟨7, "h", [], 5, none, none⟩ :=
  get_fingerprint_bad_json_empty_list (fun _ => none)
    [⟨7, "h", "not json", 5, none, none⟩] 7 ⟨7, "h", "not json", 5, none, none⟩
    (by decide) rfl

/-- C6: when the content hashes agree, the Attachment-only detector fires
exactly when the set difference previous-minus-current of attachment hashes is
non-empty; a fired result reports exactly that difference (as computed by the
source's filter) and is tagged AttachmentOnly; and the Full-message detector
does not fire on such a pair. -/
theorem attachment_only_exact_difference (config : DetectionConfig)
    (prev curr : MessageFingerprint)
    (hhash : prev.content_hash = curr.content_hash) :
    ((Detector.detect .attachmentOnly config (some curr) (some prev)).isSome ↔
      prev.attachment_hashes.filter
        (fun hash => !(curr.attachment_hashes.contains hash)) ≠ []) ∧
    (∀ r, Detector.detect .attachmentOnly config (some curr) (some prev) = some r →
      r.recovered_attachments =
        prev.attachment_hashes.filter
          (fun hash => !(curr.attachment_hashes.contains hash)) ∧
      r.deletion_type = .AttachmentOnly ∧ r.recovered_content = none) ∧
    Detector.detect .fullMessage config (some curr) (some prev) = none := by
  refine ⟨?_, ?_, ?_⟩
  · by_cases hl : prev.attachment_hashes = curr.attachment_hashes
    · have hM : prev.attachment_hashes.filter
          (fun hash => !(curr.attachment_hashes.contains hash)) = [] := by
        rw [List.filter_eq_nil_iff]
        intro a ha
        rw [hl] at ha
        simp [ha]
      simp [Detector.detect, hl, hM]
    · simp only [Detector.detect, hhash, hl, true_and, ne_eq,
        not_false_iff, if_true, List.isEmpty_iff]
      by_cases hM : prev.attachment_hashes.filter
          (fun hash => !(curr.attachment_hashes.contains hash)) = [] <;>
        simp [hM]
  · intro r hr
    simp [Detector.detect, hhash] at hr
    obtain ⟨h1, h2, rfl⟩ := hr
    simp
  · simp [Detector.detect, hhash]

/-- C6 witness: previous attachments [x, y], current [x], same hash "A": the
spec's own example pair, run through the theorem. -/
theorem attachment_only_exact_difference_witness :
    ((Detector.detect .attachmentOnly defaultDetectionConfig
        (some ⟨7, "A", ["x"], 1, none, none⟩)
        (some ⟨7, "A", ["x", "y"], 0, none, none⟩)).isSome ↔
      (MessageFingerprint.mk 7 "A" ["x", "y"] 0 none none).attachment_hashes.filter
        (fun hash =>
          !((MessageFingerprint.mk 7 "A" ["x"] 1 none none).attachment_hashes.contains
            hash)) ≠ []) ∧
    Detector.detect .fullMessage defaultDetectionConfig
      (some ⟨7, "A", ["x"], 1, none, none⟩)
      (some ⟨7, "A", ["x", "y"], 0, none, none⟩) = none := by
  have h := attachment_only_exact_difference defaultDetectionConfig
    ⟨7, "A", ["x", "y"], 0, none, none⟩ ⟨7, "A", ["x"], 1, none, none⟩ rfl
  exact ⟨h.1, h.2.2⟩

/-- No detector fires when previous and current fingerprints are equal: the
content hash and the attachment list both compare equal to themselves. -/
theorem detect_self_none (d : Detector) (config : DetectionConfig)
    (c : MessageFingerprint) :
    Detector.detect d config (some c) (some c) = none := by
  cases d
  · simp [Detector.detect]
  · simp [Detector.detect]
  · cases htr : config.track_edits_as_deletions <;> simp [Detector.detect, htr]

/-- Consequently the whole detector chain yields no result on an unchanged
fingerprint, for any detector list. -/
theorem runDetectors_self_none (config : DetectionConfig)
    (detectors : List Detector) (c : MessageFingerprint) :
    runDetectors config detectors (some c) (some c) = none := by
  rw [runDetectors, List.findSome?_eq_none_iff]
  intro d _
  exact detect_self_none d config c

/-- C2 counterexample: with the source's `build_current_fingerprint` stub the
baseline is never replaced, so the very same transition for message 7
(previous present, current absent) yields a FullMessage record on the first
tick, leaves the fingerprint table untouched, and yields another record for
the identical transition on the next tick — refuting "the newly computed
current fingerprint is stored ... so the same fingerprint transition is not
reported again on the next tick" for the code as written. -/
theorem stub_baseline_rereports_transition :
    (process_event defaultDetectionConfig encDemo decDemo 200
        (.messagesModified [7]) [row7]).1.length = 1 ∧
    (process_event defaultDetectionConfig encDemo decDemo 200
        (.messagesModified [7]) [row7]).2 = [row7] ∧
    (process_event defaultDetectionConfig encDemo decDemo 300
        (.messagesModified [7])
        (process_event defaultDetectionConfig encDemo decDemo 200
          (.messagesModified [7]) [row7]).2).1.length = 1 := by
  decide

/-- C2 amended: whenever the per-id step of `analyze_message_changes` does
compute a current fingerprint (`currentOf id = some c` with `c` keyed to the
id and JSON decode inverting encode), that fingerprint is stored as the new
baseline regardless of whether any detector fired, and a subsequent run in
which previous and current both equal `c` fires no detector. -/
theorem current_fingerprint_stored_when_present (config : DetectionConfig)
    (encA : List String → String) (decA : String → Option (List String))
    (currentOf : Int → Option MessageFingerprint) (now : Int)
    (table : List FingerprintRow) (message_id : Int) (c : MessageFingerprint)
    (hcur : currentOf message_id = some c)
    (hid : c.message_id = message_id)
    (hround : decA (encA c.attachment_hashes) = some c.attachment_hashes) :
    get_fingerprint decA message_id
        (processMessageId config encA decA currentOf now table message_id).2 =
      some c ∧
    runDetectors config (DetectionEngine.new config) (some c) (some c) = none := by
  refine ⟨?_, runDetectors_self_none config _ c⟩
  subst hid
  obtain ⟨mid, ch, ah, ts, cid, sh⟩ := c
  simp only at hround
  simp [processMessageId, hcur, get_fingerprint, store_fingerprint, hround]

/-- C2 witness: message 7's current fingerprint resolves, is stored into the
empty table, and reads back; the unchanged pair then fires nothing. -/
theorem current_fingerprint_stored_when_present_witness :
    get_fingerprint decDemo 7
        (processMessageId defaultDetectionConfig encDemo decDemo
          (fun _ => some ⟨7, "A", [], 100, none, none⟩) 500 [] 7).2 =
      some ⟨7, "A", [], 100, none, none⟩ ∧
    runDetectors defaultDetectionConfig
      (DetectionEngine.new defaultDetectionConfig)
      (some ⟨7, "A", [], 100, none, none⟩)
      (some ⟨7, "A", [], 100, none, none⟩) = none :=
  current_fingerprint_stored_when_present defaultDetectionConfig encDemo decDemo
    (fun _ => some ⟨7, "A", [], 100, none, none⟩) 500 [] 7
    ⟨7, "A", [], 100, none, none⟩ rfl rfl (by decide)

/-- C3 counterexample: with the default configuration (edit-tracking
disabled), previous hash "A" and a present current fingerprint with hash "B"
make the Full-message detector fire with "Modified content", and the per-id
engine step produces a DeletionRecord — refuting "no classifier fires and no
DeletionRecord is produced". -/
theorem full_message_fires_when_edit_tracking_disabled :
    defaultDetectionConfig.track_edits_as_deletions = false ∧
    runDetectors defaultDetectionConfig
        (DetectionEngine.new defaultDetectionConfig) (some currB) (some prevA) =
      some ⟨.FullMessage, some "Modified content", [], []⟩ ∧
    (processMessageId defaultDetectionConfig encDemo decDemo
        (fun _ => some currB) 300 [row7] 7).1.isSome = true := by
  decide

/-- C3 amended: with edit-tracking disabled only the Partial-edit detector is
suppressed; on a changed content hash with the item still present the
Full-message detector still fires (with the fixed "Modified content"
result). -/
theorem edit_tracking_disabled_behavior (config : DetectionConfig)
    (prev curr : MessageFingerprint)
    (htrack : config.track_edits_as_deletions = false)
    (hhash : prev.content_hash ≠ curr.content_hash) :
    Detector.detect .partEdit config (some curr) (some prev) = none ∧
    Detector.detect .fullMessage config (some curr) (some prev) =
      some ⟨.FullMessage, some "Modified content", [], []⟩ := by
  constructor
  · simp [Detector.detect, htrack]
  · simp [Detector.detect, hhash]

/-- C3 amended witness: the default config with previous hash "A" and current
hash "B". -/
theorem edit_tracking_disabled_behavior_witness :
    Detector.detect .partEdit defaultDetectionConfig (some currB) (some prevA) =
      none ∧
    Detector.detect .fullMessage defaultDetectionConfig (some currB)
        (some prevA) =
      some ⟨.FullMessage, some "Modified content", [], []⟩ :=
  edit_tracking_disabled_behavior defaultDetectionConfig prevA currB rfl
    (by decide)

/-- C5: the Full-message detector's recovered content is the hard-coded
literal "Full message content" (vanished item) or "Modified content" (changed
hash), identical for previous fingerprints with entirely different retained
payloads — it is fabricated, not derived from the previous fingerprint. -/
theorem recovered_content_is_fabricated_literal :
    Detector.detect .fullMessage defaultDetectionConfig none (some prevA) =
      some ⟨.FullMessage, some "Full message content", [], []⟩ ∧
    (Detector.detect .fullMessage defaultDetectionConfig none
        (some ⟨9, "totally-different-hash", ["a", "b"], 4, some 3, some "s"⟩)).map
      (fun r => r.recovered_content) = some (some "Full message content") ∧
    (Detector.detect .fullMessage defaultDetectionConfig (some currB)
        (some prevA)).map (fun r => r.recovered_content) =
      some (some "Modified content") := by
  decide

/-- C4: `get_deletions_in_range` errs on any journal row in range — the SELECT
produces seven columns (indices 0-6) but the row mapper reads the attachments
JSON from column index 7, so `rusqlite` returns `InvalidColumnIndex(7)` and
the whole query fails; only an empty selection returns `Ok`.  (The fingerprint
decoder below succeeds on everything, showing the error is not a JSON
failure.) -/
theorem get_deletions_in_range_invalid_column :
    get_deletions_in_range (fun _ => some prevA) decDemo 0 200
        [⟨1, 7, "fp-json", 100, "FullMessage", none, ""⟩] =
      .error (.invalidColumnIndex 7) ∧
    get_deletions_in_range (fun _ => some prevA) decDemo 0 200 [] = .ok [] :=
  ⟨rfl, rfl⟩

/-- C1: for every tracker state and id batch, `handle_event` on
`MessagesModified` returns the state unchanged — `deletions` is bound to the
empty placeholder vector and `DetectionEngine::process_event` is never
invoked, so nothing is journaled and nothing reaches the sinks — even though
the engine itself, run on the same batch against a table that holds a
fingerprint for message 7, yields one DeletionRecord. -/
theorem handle_event_ignores_detection_engine :
    (∀ (encFp : MessageFingerprint → String) (encA : List String → String)
        (s : TrackerState) (ids : List Int),
        handle_event encFp encA s (.messagesModified ids) = s) ∧
    (process_event defaultDetectionConfig encDemo decDemo 200
        (.messagesModified [7]) [row7]).1.length = 1 :=
  ⟨fun _ _ _ _ => rfl, by decide⟩

/-- C7 counterexample: with sink A whose `initialize()` fails and sink B whose
`initialize()` would succeed, `OutputManager::initialize` returns A's error
(B is never initialized) and the failure propagates through the
`initialize().await?` in `DeletionTracker::new` — refuting "only that sink is
excluded ... initialization of the process as a whole still succeeds". -/
theorem sink_init_failure_is_fatal_cex :
    OutputManager.initAll
        [⟨"A", .error "io error", .ok ()⟩, ⟨"B", .ok (), .ok ()⟩] =
      .error "io error" ∧
    tracker_new_sink_init
        [⟨"A", .error "io error", .ok ()⟩, ⟨"B", .ok (), .ok ()⟩] =
      .error "io error" :=
  ⟨rfl, rfl⟩

/-- C7 amended: the first sink whose `initialize()` fails aborts
`OutputManager::initialize` with that error (all earlier sinks having
initialized), and the error propagates out of `DeletionTracker::new`'s sink
initialization, failing tracker construction. -/
theorem sink_init_failure_aborts_initialization (pre : List SinkSpec)
    (h : SinkSpec) (rest : List SinkSpec) (e : String)
    (hpre : ∀ p ∈ pre, p.init_result = .ok ())
    (hfail : h.init_result = .error e) :
    OutputManager.initAll (pre ++ h :: rest) = .error e ∧
    tracker_new_sink_init (pre ++ h :: rest) = .error e := by
  have hinit : OutputManager.initAll (pre ++ h :: rest) = .error e := by
    induction pre with
    | nil => simp [OutputManager.initAll, hfail]
    | cons p pre ih =>
      have hp : p.init_result = .ok () := hpre p (by simp)
      have ih' := ih (fun q hq => hpre q (by simp [hq]))
      simp [OutputManager.initAll, hp, ih', Except.map]
  exact ⟨hinit, by simp [tracker_new_sink_init, hinit, Except.map]⟩

/-- C7 amended witness: a succeeding sink, then a failing one, then another
would-be-succeeding one. -/
theorem sink_init_failure_aborts_initialization_witness :
    OutputManager.initAll
        ([⟨"T", .ok (), .ok ()⟩] ++ ⟨"A", .error "io", .ok ()⟩ ::
          [⟨"B", .ok (), .ok ()⟩]) = .error "io" ∧
    tracker_new_sink_init
        ([⟨"T", .ok (), .ok ()⟩] ++ ⟨"A", .error "io", .ok ()⟩ ::
          [⟨"B", .ok (), .ok ()⟩]) = .error "io" :=
  sink_init_failure_aborts_initialization [⟨"T", .ok (), .ok ()⟩]
    ⟨"A", .error "io", .ok ()⟩ [⟨"B", .ok (), .ok ()⟩] "io"
    (fun p hp => by rw [List.mem_singleton] at hp; rw [hp]) rfl
